import Mathlib

/-!
Shallow embedding of `src/main.rs` of the `tui-template` repository:
a ratatui terminal application skeleton with an application state
(`App`), an input handler (`handle_input`), a command dispatcher
(`execute_command`), pure fragments of the render step (scroll offset
and cursor position), and a trace model of `main`'s
init/run/restore/report sequencing.

Rust `String` values are modelled as Lean `String` (a packed
`List Char`); Rust's byte-oriented `String::len` is modelled by
`String.utf8ByteSize`, and `u16` casts and arithmetic reduce modulo
`2 ^ 16 = 65536`.
-/

namespace TuiTemplate

/-- Model of Rust `str::trim` on the character list: drop whitespace
from the front, then from the back.  (Rust trims Unicode `White_Space`
characters; `Char.isWhitespace` covers space, tab, CR and LF, which is
the fragment relevant here.) -/
def trimChars (l : List Char) : List Char :=
  ((l.dropWhile Char.isWhitespace).reverse.dropWhile Char.isWhitespace).reverse

/-- Rust `cmd.trim()` lifted to `String`. -/
def strTrim (s : String) : String :=
  String.mk (trimChars s.data)

/-- Rust `String::pop`: remove the last character (no-op on the empty
string). -/
def strPop (s : String) : String :=
  String.mk s.data.dropLast

/-- Model of `crossterm::event::KeyEventKind` (the variants used by the
program: only `Press` is acted on, guarding against platforms that
also emit `Release`/`Repeat`). -/
inductive KeyEventKind where
  | Press
  | Release
  | Repeat
deriving DecidableEq, Repr

/-- Model of `crossterm::event::KeyCode`, restricted to the variants
`handle_input` distinguishes; every other key code falls into the
wildcard arm and is modelled by `Other`. -/
inductive KeyCode where
  | Enter
  | Char (c : Char)
  | Backspace
  | Esc
  | Other
deriving DecidableEq, Repr

/-- Model of `crossterm::event::KeyEvent`: the key code plus the event kind. -/
structure KeyEvent where
  code : KeyCode
  kind : KeyEventKind
deriving DecidableEq, Repr

/-- The `App` struct (`src/main.rs` lines 31-35): running flag,
in-progress input buffer, and the message log. -/
structure App where
  running : Bool
  input : String
  messages : List String
deriving DecidableEq, Repr

/-- The constructor `App::new` (lines 38-47): running, empty input, two greeting log
lines. -/
def App.new : App :=
  { running := true
    input := ""
    messages := ["Welcome! Type \x27help\x27 for available commands.",
                 "Press Esc to quit."] }

/-- The dispatcher `execute_command` (lines 198-221): match on `cmd.trim()` against
the fixed keyword table; the Rust `match` on string literal patterns
is sequential equality testing, rendered here as an if-chain.  The
wildcard arm logs the trimmed text as unknown. -/
def execute_command (app : App) (cmd : String) : App :=
  if strTrim cmd = "help" then
    { app with messages := app.messages ++
        ["  Available commands:",
         "    help   — show this message",
         "    hello  — say hello",
         "    clear  — clear the output",
         "    quit   — exit the app"] }
  else if strTrim cmd = "hello" then
    { app with messages := app.messages ++ ["  Hello, world!"] }
  else if strTrim cmd = "clear" then
    { app with messages := [] }
  else if strTrim cmd = "quit" then
    { app with running := false }
  else
    { app with messages := app.messages ++
        ["  Unknown command: \x27" ++ strTrim cmd ++ "\x27. Try \x27help\x27."] }

/-- The input handler `handle_input` (lines 154-190): ignore everything but key
presses; Enter drains the buffer and, when non-empty, echoes it with
the `"> "` marker and dispatches it; characters append; Backspace
pops; Esc clears the running flag; other keys are ignored. -/
def handle_input (app : App) (key : KeyEvent) : App :=
  if key.kind ≠ KeyEventKind.Press then app
  else
    match key.code with
    | KeyCode.Enter =>
        let command := app.input
        let app1 : App := { app with input := "" }
        if command ≠ "" then
          execute_command
            { app1 with messages := app1.messages ++ ["> " ++ command] } command
        else
          app1
    | KeyCode.Char c => { app with input := app.input.push c }
    | KeyCode.Backspace => { app with input := strPop app.input }
    | KeyCode.Esc => { app with running := false }
    | KeyCode.Other => app

/-- A key-press event with the given code. -/
def kp (c : KeyCode) : KeyEvent :=
  { code := c, kind := KeyEventKind.Press }

/-- Folding a sequence of input events through `handle_input`: the
state after the loop body of `run` (lines 78-86) has consumed the
sequence. -/
def runEvents (app : App) (keys : List KeyEvent) : App :=
  keys.foldl handle_input app

/-- Whether a single event, applied at state `app`, is a terminating
event: an Esc key press, or an Enter key press submitting a non-empty
buffer whose trimmed contents are the terminate command `"quit"`. -/
def terminatesAt (app : App) (k : KeyEvent) : Bool :=
  match k.kind, k.code with
  | KeyEventKind.Press, KeyCode.Esc => true
  | KeyEventKind.Press, KeyCode.Enter =>
      app.input != "" && strTrim app.input == "quit"
  | _, _ => false

/-- Whether a sequence of events, applied from `app`, contains a
terminating event (evaluated at the state reached when it occurs). -/
def traceTerminates (app : App) : List KeyEvent → Bool
  | [] => false
  | k :: ks => terminatesAt app k || traceTerminates (handle_input app k) ks

/-- Typing a list of characters: the corresponding character key
presses folded through `handle_input`. -/
def typeChars (app : App) (cs : List Char) : App :=
  cs.foldl (fun a c => handle_input a (kp (KeyCode.Char c))) app

/-- Pressing Backspace the given number of times. -/
def backspaceN (app : App) : Nat → App
  | 0 => app
  | n + 1 => backspaceN (handle_input app (kp KeyCode.Backspace)) n

/-- The log entries `execute_command` produces for a command when run
on an empty log (for non-`"clear"` commands these are exactly the
entries it appends to any log). -/
def handlerEntries (cmd : String) : List String :=
  (execute_command { running := true, input := "", messages := [] } cmd).messages

/-- The `visible_height` of the output region (line 119): the region
height minus 2 border rows, saturating at 0 (`u16::saturating_sub`
is `Nat` subtraction here). -/
def visible_height (outputRegionHeight : Nat) : Nat :=
  outputRegionHeight - 2

/-- The `scroll_offset` (line 121): `total_lines.saturating_sub(visible_height)
as u16` — saturating subtraction followed by the truncating `as u16`
cast, i.e. reduction modulo `2 ^ 16`. -/
def scroll_offset (total_lines vis_height : Nat) : Nat :=
  (total_lines - vis_height) % 65536

/-- The scroll offset `render` computes for `app` given the output
region's height (lines 119-121): total lines is `app.messages.len()`. -/
def render_scroll (app : App) (outputRegionHeight : Nat) : Nat :=
  scroll_offset app.messages.length (visible_height outputRegionHeight)

/-- A `ratatui::layout::Rect`: position and size of a layout region,
all `u16` fields modelled as `Nat`. -/
structure Rect where
  x : Nat
  y : Nat
  width : Nat
  height : Nat
deriving DecidableEq, Repr

/-- The cursor position `render` sets (line 148):
`(chunks[1].x + app.input.len() as u16 + 1, chunks[1].y + 1)` where
`chunks[1]` is the input region.  Rust `String::len` is the UTF-8
byte length, the cast and the `u16` additions wrap modulo `2 ^ 16`. -/
def set_cursor_position (app : App) (inputRegion : Rect) : Nat × Nat :=
  ((inputRegion.x + app.input.utf8ByteSize % 65536 + 1) % 65536,
   (inputRegion.y + 1) % 65536)

/-- Observable actions of `main` (lines 53-70) at the process
boundary, in order. -/
inductive TermAction where
  | initTerminal
  | restoreTerminal
  | reportError (msg : String)
deriving DecidableEq, Repr

/-- Trace model of `main` (lines 53-70), parametrised by the result
`run` returns: `ratatui::init()` runs first, then `run` (whose
terminal I/O is not an action at this boundary), then
`ratatui::restore()` unconditionally; `main` returns the result, and
the Rust runtime reports an `Err` on standard error and exits
non-zero (`Termination` for `Result`), exit code 0 on `Ok`.  The
second component is the exit code. -/
def mainTrace (runResult : Except String Unit) : List TermAction × Nat :=
  ([TermAction.initTerminal, TermAction.restoreTerminal] ++
      (match runResult with
       | Except.ok _ => []
       | Except.error e => [TermAction.reportError e]),
   match runResult with
   | Except.ok _ => 0
   | Except.error _ => 1)

theorem data_append (a b : String) : (a ++ b).data = a.data ++ b.data := by
  cases a; cases b; rfl

theorem data_push (s : String) (c : Char) : (s.push c).data = s.data ++ [c] := by
  cases s; rfl

theorem execute_command_input (app : App) (cmd : String) :
    (execute_command app cmd).input = app.input := by
  unfold execute_command
  split_ifs <;> rfl

theorem execute_command_running (app : App) (cmd : String) :
    (execute_command app cmd).running = (app.running && !(strTrim cmd == "quit")) := by
  unfold execute_command
  split_ifs with h1 h2 h3 h4 <;> simp_all

theorem execute_command_messages_append (app : App) (cmd : String)
    (h : strTrim cmd ≠ "clear") :
    (execute_command app cmd).messages = app.messages ++ handlerEntries cmd := by
  unfold handlerEntries
  unfold execute_command
  split_ifs <;> simp_all

theorem handle_input_enter_nonempty (app : App) (h : app.input ≠ "") :
    handle_input app (kp KeyCode.Enter)
      = execute_command
          { app with input := "", messages := app.messages ++ ["> " ++ app.input] }
          app.input := by
  simp [handle_input, kp, h]

/-- Claim C4: pressing enter on an empty input buffer changes nothing. -/
theorem C4_enter_empty_noop (app : App) (h : app.input = "") :
    handle_input app (kp KeyCode.Enter) = app := by
  rcases app with ⟨r, i, m⟩
  simp_all [handle_input, kp]

theorem C4_enter_empty_noop_witness :
    handle_input { running := true, input := "", messages := ["a"] } (kp KeyCode.Enter)
      = { running := true, input := "", messages := ["a"] } :=
  C4_enter_empty_noop { running := true, input := "", messages := ["a"] } (by decide)

/-- Claim C10: submitting clear empties the whole log, echo included. -/
theorem C10_clear_empties_log (app : App) (hne : app.input ≠ "")
    (hclear : strTrim app.input = "clear") :
    (handle_input app (kp KeyCode.Enter)).messages = [] := by
  simp [handle_input, kp, hne, execute_command, hclear]

theorem C10_clear_empties_log_witness :
    (handle_input { running := true, input := " clear ", messages := ["a", "b"] }
        (kp KeyCode.Enter)).messages = [] :=
  C10_clear_empties_log { running := true, input := " clear ", messages := ["a", "b"] }
    (by decide) (by decide)

/-- Claim C1: the restore step runs exactly once on every exit path of
main, and on the error path it runs before the error is reported; the
error path exits non-zero and the normal path exits zero. -/
theorem C1_restore_once (r : Except String Unit) :
    (mainTrace r).1.count TermAction.restoreTerminal = 1 ∧
      (∀ e, r = Except.error e →
          (mainTrace r).1 = [TermAction.initTerminal, TermAction.restoreTerminal,
                             TermAction.reportError e] ∧ (mainTrace r).2 ≠ 0) ∧
      (r = Except.ok () →
          (mainTrace r).1 = [TermAction.initTerminal, TermAction.restoreTerminal] ∧
            (mainTrace r).2 = 0) := by
  rcases r with e | u
  · refine ⟨?_, ?_, ?_⟩
    · simp [mainTrace, List.count_cons]
    · intro e2 he
      cases he
      exact ⟨rfl, by simp [mainTrace]⟩
    · intro h
      cases h
  · refine ⟨by simp [mainTrace, List.count_cons], ?_, fun _ => ⟨rfl, rfl⟩⟩
    intro e he
    cases he

theorem C1_restore_once_witness :
    (mainTrace (Except.error "boom")).1 =
        [TermAction.initTerminal, TermAction.restoreTerminal, TermAction.reportError "boom"] :=
  ((C1_restore_once (Except.error "boom")).2.1 "boom" rfl).1

/-- Claim C6 counterexample: with 65546 total lines and an output
region of height 12 (visible height 10), the code computes
(65546 - 10) truncated to u16, i.e. 0, not max 0 (65546 - 10) = 65536. -/
theorem C6_counterexample :
    scroll_offset 65546 (visible_height 12) ≠ max 0 (65546 - visible_height 12) := by
  decide

/-- Claim C6 (amended): the scroll offset is max 0 (total - visible)
reduced modulo 2 ^ 16 by the cast to u16, so it equals
max 0 (total - visible) whenever that difference is below 65536; in
the scenario of 50 log entries and visible height 10 it is 40. -/
theorem C6_scroll_offset :
    (∀ (app : App) (h : Nat),
        app.messages.length - visible_height h < 65536 →
          render_scroll app h = max 0 (app.messages.length - visible_height h)) ∧
      render_scroll { running := true, input := "", messages := List.replicate 50 "x" } 12
        = 40 := by
  constructor
  · intro app h hlt
    unfold render_scroll scroll_offset
    rw [Nat.mod_eq_of_lt hlt]
    simp
  · decide

theorem C6_scroll_offset_witness :
    render_scroll { running := true, input := "", messages := ["a", "b", "c"] } 3 = 2 :=
  C6_scroll_offset.1 { running := true, input := "", messages := ["a", "b", "c"] } 3
    (by decide)

/-- Claim C9 counterexample: with the input buffer holding the single
two-byte character é and the input region at the origin, the code
places the cursor at column 0 + 2 + 1 = 3, not at
x + number of characters + 1 = 2. -/
theorem C9_counterexample :
    set_cursor_position { running := true, input := "é", messages := [] } ⟨0, 0, 20, 3⟩
      ≠ (0 + ("é" : String).length + 1, 0 + 1) := by
  decide

/-- Claim C9 (amended): the cursor column is the input region x plus
the UTF-8 byte length of the input buffer plus 1, and the row is the
region y plus 1, computed in wrapping u16 arithmetic; they equal the
unwrapped sums whenever those fit in a u16. -/
theorem C9_cursor_position (app : App) (r : Rect)
    (hx : r.x + app.input.utf8ByteSize + 1 < 65536) (hy : r.y + 1 < 65536) :
    set_cursor_position app r = (r.x + app.input.utf8ByteSize + 1, r.y + 1) := by
  unfold set_cursor_position
  have hlen : app.input.utf8ByteSize < 65536 := by omega
  rw [Nat.mod_eq_of_lt hlen, Nat.mod_eq_of_lt hx, Nat.mod_eq_of_lt hy]

theorem C9_cursor_position_witness :
    set_cursor_position { running := true, input := "ab", messages := [] } ⟨2, 5, 10, 3⟩
      = (5, 6) :=
  C9_cursor_position { running := true, input := "ab", messages := [] } ⟨2, 5, 10, 3⟩
    (by decide) (by decide)

/-- Claim C7 counterexample: submitting the command " xyz "
(unrecognized after trimming) appends an entry containing the trimmed
text xyz but not the literal submitted text " xyz ". -/
theorem C7_counterexample :
    (execute_command App.new " xyz ").messages =
        App.new.messages ++ ["  Unknown command: \x27xyz\x27. Try \x27help\x27."] ∧
      ¬ (" xyz ".data <:+: ("  Unknown command: \x27xyz\x27. Try \x27help\x27." : String).data) := by
  constructor
  · decide
  · decide

/-- Claim C7 (amended): dispatch matches the trimmed submitted text
exactly and case-sensitively against the keyword table; an unmatched
command appends exactly one entry, which contains the trimmed (not
the literal) submitted text as a substring, and leaves the running
flag unchanged. -/
theorem C7_unknown_command (app : App) (cmd : String)
    (h : strTrim cmd ∉ (["help", "hello", "clear", "quit"] : List String)) :
    (execute_command app cmd).messages =
        app.messages ++ ["  Unknown command: \x27" ++ strTrim cmd ++ "\x27. Try \x27help\x27."] ∧
      (execute_command app cmd).running = app.running ∧
      (strTrim cmd).data <:+:
        ("  Unknown command: \x27" ++ strTrim cmd ++ "\x27. Try \x27help\x27.").data := by
  simp only [List.mem_cons, List.mem_singleton, not_or] at h
  obtain ⟨h1, h2, h3, h4⟩ := h
  refine ⟨?_, ?_, ?_⟩
  · unfold execute_command
    split_ifs <;> simp_all
  · unfold execute_command
    split_ifs <;> simp_all
  · refine ⟨("  Unknown command: \x27" : String).data, ("\x27. Try \x27help\x27." : String).data, ?_⟩
    rw [data_append, data_append]

theorem C7_unknown_command_witness :
    (execute_command App.new "xyz").messages =
        App.new.messages ++ ["  Unknown command: \x27xyz\x27. Try \x27help\x27."] :=
  (C7_unknown_command App.new "xyz" (by decide)).1

theorem handle_input_running (app : App) (k : KeyEvent) :
    (handle_input app k).running = (app.running && !terminatesAt app k) := by
  rcases k with ⟨code, kind⟩
  cases kind
  · cases code
    · by_cases hi : app.input = ""
      · simp [handle_input, terminatesAt, hi]
      · have h1 : (app.input != "") = true := by simpa using hi
        simp [handle_input, terminatesAt, hi, execute_command_running, h1]
    · simp [handle_input, terminatesAt]
    · simp [handle_input, terminatesAt]
    · simp [handle_input, terminatesAt]
    · simp [handle_input, terminatesAt]
  · simp [handle_input, terminatesAt]
  · simp [handle_input, terminatesAt]

theorem runEvents_running (app : App) (ks : List KeyEvent) :
    (runEvents app ks).running = (app.running && !traceTerminates app ks) := by
  induction ks generalizing app with
  | nil => simp [runEvents, traceTerminates]
  | cons k ks ih =>
      have h1 : runEvents app (k :: ks) = runEvents (handle_input app k) ks := rfl
      rw [h1, ih, handle_input_running, traceTerminates]
      cases app.running <;> cases terminatesAt app k <;> simp

/-- Claim C2: starting from the initial state, the loop state is
Running after a sequence of events exactly when the trace contains no
terminating event (no Esc press and no submission of a buffer trimming
to quit); and an Esc press from any state yields a non-running
state. -/
theorem C2_running_iff :
    (∀ ks : List KeyEvent,
        (runEvents App.new ks).running = true ↔ traceTerminates App.new ks = false) ∧
      (∀ app : App, (handle_input app (kp KeyCode.Esc)).running = false) := by
  constructor
  · intro ks
    rw [runEvents_running]
    show (App.new.running && !traceTerminates App.new ks) = true ↔ _
    cases htr : traceTerminates App.new ks <;> simp [App.new]
  · intro app
    simp [handle_input, kp]

/-- Claim C3: submitting a non-empty buffer factors exactly as: append
the echo entry (marker plus buffer), clear the buffer, then run the
Command Handler on the submitted text; the buffer is empty afterwards,
and for every non-clear command the handler purely appends its
entries. -/
theorem C3_enter_nonempty (app : App) (h : app.input ≠ "") :
    handle_input app (kp KeyCode.Enter)
        = execute_command
            { app with input := "", messages := app.messages ++ ["> " ++ app.input] }
            app.input
      ∧ (handle_input app (kp KeyCode.Enter)).input = ""
      ∧ (∀ (a : App) (cmd : String), strTrim cmd ≠ "clear" →
          (execute_command a cmd).messages = a.messages ++ handlerEntries cmd) := by
  refine ⟨handle_input_enter_nonempty app h, ?_, ?_⟩
  · rw [handle_input_enter_nonempty app h, execute_command_input]
  · intro a cmd hc
    exact execute_command_messages_append a cmd hc

theorem C3_enter_nonempty_witness :
    handle_input { running := true, input := "hi", messages := ["m"] } (kp KeyCode.Enter)
      = execute_command { running := true, input := "", messages := ["m", "> hi"] } "hi" :=
  (C3_enter_nonempty { running := true, input := "hi", messages := ["m"] } (by decide)).1

theorem char_then_backspace (app : App) (c : Char) :
    handle_input (handle_input app (kp (KeyCode.Char c))) (kp KeyCode.Backspace) = app := by
  show { app with input := strPop (app.input.push c) } = app
  have h : strPop (app.input.push c) = app.input := by
    rcases app.input with ⟨d⟩
    show String.mk ((d ++ [c]).dropLast) = String.mk d
    rw [List.dropLast_concat]
  rw [h]

theorem backspaceN_typeChars (app : App) (cs : List Char) :
    backspaceN (typeChars app cs) cs.length = app := by
  induction cs using List.reverseRecOn generalizing app with
  | nil => rfl
  | append_singleton l c ih =>
      have h1 : typeChars app (l ++ [c])
          = handle_input (typeChars app l) (kp (KeyCode.Char c)) := by
        simp [typeChars, List.foldl_append]
      have h2 : (l ++ [c]).length = l.length + 1 := by simp
      rw [h1, h2]
      show backspaceN
        (handle_input (handle_input (typeChars app l) (kp (KeyCode.Char c)))
          (kp KeyCode.Backspace)) l.length = app
      rw [char_then_backspace]
      exact ih app

/-- Claim C5: appending a character and then backspacing restores the
whole state; backspace on an empty buffer is a no-op; typing any list
of characters and backspacing that many times restores the state. -/
theorem C5_backspace_inverse :
    (∀ (app : App) (c : Char),
        handle_input (handle_input app (kp (KeyCode.Char c))) (kp KeyCode.Backspace) = app) ∧
      (∀ app : App, app.input = "" → handle_input app (kp KeyCode.Backspace) = app) ∧
      (∀ (app : App) (cs : List Char), backspaceN (typeChars app cs) cs.length = app) := by
  refine ⟨char_then_backspace, ?_, backspaceN_typeChars⟩
  intro app h
  rcases app with ⟨r, i, m⟩
  rcases i with ⟨d⟩
  show App.mk r (String.mk d.dropLast) m = App.mk r (String.mk d) m
  have hd : d = [] := by
    simpa [String.ext_iff] using h
  rw [hd]
  rfl

theorem C5_backspace_inverse_witness :
    handle_input { running := true, input := "", messages := ["a"] } (kp KeyCode.Backspace)
      = { running := true, input := "", messages := ["a"] } :=
  C5_backspace_inverse.2.1 { running := true, input := "", messages := ["a"] } (by decide)

/-- Claim C8: every key event either purely appends to the log, or is
the submission of a buffer trimming to clear, in which case the log
becomes empty; no reordering and no partial deletion occur. -/
theorem C8_log_append_or_clear (app : App) (k : KeyEvent) :
    (∃ t, (handle_input app k).messages = app.messages ++ t) ∨
      (k.kind = KeyEventKind.Press ∧ k.code = KeyCode.Enter ∧
        app.input ≠ "" ∧ strTrim app.input = "clear" ∧
        (handle_input app k).messages = []) := by
  rcases k with ⟨code, kind⟩
  cases kind
  · cases code
    · by_cases hi : app.input = ""
      · exact Or.inl ⟨[], by simp [handle_input, hi]⟩
      · by_cases hc : strTrim app.input = "clear"
        · refine Or.inr ⟨rfl, rfl, hi, hc, ?_⟩
          simp [handle_input, hi, execute_command, hc]
        · refine Or.inl ⟨["> " ++ app.input] ++ handlerEntries app.input, ?_⟩
          show (handle_input app (kp KeyCode.Enter)).messages = _
          rw [handle_input_enter_nonempty app hi,
            execute_command_messages_append _ _ hc]
          simp
    · exact Or.inl ⟨[], by simp [handle_input]⟩
    · exact Or.inl ⟨[], by simp [handle_input]⟩
    · exact Or.inl ⟨[], by simp [handle_input]⟩
    · exact Or.inl ⟨[], by simp [handle_input]⟩
  · exact Or.inl ⟨[], by simp [handle_input]⟩
  · exact Or.inl ⟨[], by simp [handle_input]⟩

theorem C2_running_iff_witness :
    (runEvents App.new [kp (KeyCode.Char 'h')]).running = true :=
  (C2_running_iff.1 [kp (KeyCode.Char 'h')]).mpr (by decide)

end TuiTemplate
